import Mathlib

/-!
Verification of the CodeStory ingestion pipeline (`lib/notion-sync.ts`,
`lib/redis.ts`): content extraction, bounded-depth block-tree fetching,
plain-text rendering, sync orchestration and the cache layer, shallowly
embedded in Lean.  Each definition mirrors one TypeScript function of the
repository; theorems settle the specification's claims about them.
-/

namespace CodeStory

/-- One inline rich-text run, as delivered by the remote source
(`RichTextItemResponse`): only its `plain_text` matters to this core. -/
structure RichTextItem where
  plain_text : String
deriving DecidableEq, Repr

/-- A raw remote block (`BlockObjectResponse`).  In TypeScript each block
variant carries its rich-text runs under a field named after the block's
type (`block.paragraph.rich_text`, ...); we model those typed sub-objects
as an association list from field name to rich-text runs, so that the
source's `if ('paragraph' in block)` guards stay visible. -/
structure RawBlock where
  id : String
  type : String
  fields : List (String × List RichTextItem)
  has_children : Bool
deriving DecidableEq, Repr

/-- Field access `block[name].rich_text`: `none` when the field is absent
(the source's `'name' in block` guard failing). -/
def RawBlock.getField (b : RawBlock) (name : String) : Option (List RichTextItem) :=
  (b.fields.find? (fun p => p.1 == name)).map (fun p => p.2)

/-- `extractRichTextContent` (lib/notion-sync.ts:73-76): concatenate the
`plain_text` of the runs, in order, with no separator. -/
def extractRichTextContent (richTexts : List RichTextItem) : String :=
  String.join (richTexts.map (fun t => t.plain_text))

/-- `extractBlockContent` (lib/notion-sync.ts:129-171): switch on the block
type; the seven recognized text-bearing types concatenate their rich-text
runs (falling through to `return ''` when the typed field is absent); every
other type - `table` and `image` included - takes the `default` branch and
returns the sentinel string. -/
def extractBlockContent (block : RawBlock) : String :=
  match block.type with
  | "paragraph" =>
    match block.getField "paragraph" with
    | some rt => extractRichTextContent rt
    | none => ""
  | "heading_1" =>
    match block.getField "heading_1" with
    | some rt => extractRichTextContent rt
    | none => ""
  | "heading_2" =>
    match block.getField "heading_2" with
    | some rt => extractRichTextContent rt
    | none => ""
  | "heading_3" =>
    match block.getField "heading_3" with
    | some rt => extractRichTextContent rt
    | none => ""
  | "bulleted_list_item" =>
    match block.getField "bulleted_list_item" with
    | some rt => extractRichTextContent rt
    | none => ""
  | "numbered_list_item" =>
    match block.getField "numbered_list_item" with
    | some rt => extractRichTextContent rt
    | none => ""
  | "toggle" =>
    match block.getField "toggle" with
    | some rt => extractRichTextContent rt
    | none => ""
  | t => "Unsupported block type: " ++ t

/-- A Notion page property as consumed by `extractPageTitle`
(lib/notion-sync.ts:24-46).  `str` models a property that is a plain
JavaScript string (the `typeof prop === 'string'` case); `other` models a
property object whose `type` is none of the recognized tags. -/
inductive NProp where
  | title (items : List RichTextItem)
  | rich_text (items : List RichTextItem)
  | select (name : Option String)
  | multi_select (names : List String)
  | str (s : String)
  | other (typeName : String)
deriving DecidableEq, Repr

/-- `properties[key]` lookup on the page's property record. -/
def lookupProp (properties : List (String × NProp)) (key : String) : Option NProp :=
  (properties.find? (fun p => p.1 == key)).map (fun p => p.2)

/-- The candidate title keys, in priority order (lib/notion-sync.ts:26). -/
def possibleTitleKeys : List String := ["Pages", "Pages ", "Name", "Title"]

/-- `x || null` on an optional string: JavaScript coerces both `undefined`
and the empty string to `null`. -/
def orNull (s : Option String) : Option String :=
  match s with
  | none => none
  | some s => if s = "" then none else some s

/-- One iteration of the `extractPageTitle` loop body: `none` means the
loop continues to the next key (property absent, or unrecognized
non-string property), `some r` means the function returns `r`. -/
def titleStep (properties : List (String × NProp)) (key : String) :
    Option (Option String) :=
  match lookupProp properties key with
  | none => none
  | some prop =>
    match prop with
    | NProp.title items => some (orNull (items.head?.map (fun t => t.plain_text)))
    | NProp.rich_text items => some (orNull (items.head?.map (fun t => t.plain_text)))
    | NProp.select name => some (orNull name)
    | NProp.multi_select names => some (orNull names.head?)
    | NProp.str s => some (some s)
    | NProp.other _ => none

/-- `extractPageTitle` (lib/notion-sync.ts:24-46): walk the candidate keys
in order; a present property of a recognized shape makes the function
return immediately (its value, or `null` when that value is empty); only
an absent key or an unrecognized non-string property falls through to the
next candidate. -/
def extractPageTitle (properties : List (String × NProp)) : Option String :=
  go possibleTitleKeys
where
  go : List String → Option String
    | [] => none
    | key :: keys =>
      match titleStep properties key with
      | some r => r
      | none => go keys

/-- A processed block: the tree node built by the fetcher
(`ProcessedBlock`, lib/notion-sync.ts:12-17). -/
inductive ProcessedBlock where
  | mk (id : String) (type : String) (content : String)
       (children : List ProcessedBlock)
deriving Repr

def ProcessedBlock.id : ProcessedBlock → String
  | .mk i _ _ _ => i

def ProcessedBlock.type : ProcessedBlock → String
  | .mk _ t _ _ => t

def ProcessedBlock.content : ProcessedBlock → String
  | .mk _ _ c _ => c

def ProcessedBlock.children : ProcessedBlock → List ProcessedBlock
  | .mk _ _ _ cs => cs

/-- The remote client's children-listing endpoint
(`notion.blocks.children.list`): given a block id it returns the list of
child blocks, or throws (`Except.error`). -/
def NotionClient := String → Except Unit (List RawBlock)

/-- `processBlocksRecursively` (lib/notion-sync.ts:79-126), with an
explicit structural gas so the definition computes in the kernel.  The
source recurses on `depth + 1` under the guard `depth >= maxDepth`, so
`maxDepth - depth` bounds the recursion depth and is used as gas; the gas
is threaded alongside the source's own `depth`/`maxDepth` arguments, and
both of the source's guards (`depth >= maxDepth` at entry,
`block.has_children && depth < maxDepth` before recursing) appear as
written.  A failing listing call for the given block is caught and yields
`[]` (the source's outer catch, lines 122-125); a failing recursive call
for a child's subtree likewise yields that child with `children = []`
(lines 107-115). -/
def processBlocksAux (client : NotionClient) :
    Nat → String → Nat → Nat → List ProcessedBlock
  | gas, blockId, depth, maxDepth =>
    if depth ≥ maxDepth then []
    else
      match gas with
      | 0 => []
      | gas + 1 =>
        match client blockId with
        | Except.error _ => []
        | Except.ok blocks =>
          blocks.map (fun b =>
            ProcessedBlock.mk b.id b.type (extractBlockContent b)
              (if b.has_children && decide (depth < maxDepth) then
                processBlocksAux client gas b.id (depth + 1) maxDepth
              else []))

/-- Entry point of the fetcher: the gas `maxDepth - depth` is exactly the
number of levels the source can still descend, so it never runs out before
the source's own `depth >= maxDepth` guard stops the recursion. -/
def processBlocksRecursively (client : NotionClient) (blockId : String)
    (depth : Nat := 0) (maxDepth : Nat := 3) : List ProcessedBlock :=
  processBlocksAux client (maxDepth - depth) blockId depth maxDepth

/-- The children-listing calls `processBlocksRecursively` actually issues
to the remote client, as (block id, depth) pairs: a call for `blockId` at
`depth` is executed exactly when the `depth >= maxDepth` guard has been
passed (lib/notion-sync.ts:84-90) - it is recorded whether it succeeds or
throws - and the recursion descends into exactly the children with
`has_children` set, under the same `depth < maxDepth` condition as the
fetcher itself. -/
def fetchCallsAux (client : NotionClient) :
    Nat → String → Nat → Nat → List (String × Nat)
  | gas, blockId, depth, maxDepth =>
    if depth ≥ maxDepth then []
    else
      match gas with
      | 0 => []
      | gas + 1 =>
        match client blockId with
        | Except.error _ => [(blockId, depth)]
        | Except.ok blocks =>
          (blockId, depth) ::
            blocks.flatMap (fun b =>
              if b.has_children && decide (depth < maxDepth) then
                fetchCallsAux client gas b.id (depth + 1) maxDepth
              else [])

/-- The listing calls issued by a run of the fetcher from `blockId`. -/
def fetchListingCalls (client : NotionClient) (blockId : String)
    (depth : Nat := 0) (maxDepth : Nat := 3) : List (String × Nat) :=
  fetchCallsAux client (maxDepth - depth) blockId depth maxDepth

mutual
/-- Size of a processed block (gas bound for the renderer). -/
def sizePB : ProcessedBlock → Nat
  | .mk _ _ _ cs => 1 + sizePBs cs

/-- Size of a processed-block list (gas bound for the renderer). -/
def sizePBs : List ProcessedBlock → Nat
  | [] => 0
  | b :: rest => 1 + sizePB b + sizePBs rest
end

/-- JavaScript regex `\s` on the ASCII range: the whitespace characters
the `undefined.` cleanup can swallow. -/
def jsSpace (c : Char) : Bool :=
  c == ' ' || c == '\t' || c == '\n' || c == '\r' || c == '\x0b' || c == '\x0c'

/-- The literal text the cleanup pattern starts with. -/
def undefinedDot : List Char := "undefined.".toList

/-- JavaScript `String.prototype.trim()`: strip whitespace from both ends. -/
def jsTrim (s : String) : String :=
  String.mk (((s.data.dropWhile jsSpace).reverse.dropWhile jsSpace).reverse)

/-- Scan for `content.replace(/undefined\.\s*/g, '- ')`
(lib/notion-sync.ts:205): at each position, a leftmost match of
`undefined.` plus the following maximal whitespace run is replaced by
`- ` and scanning resumes after the match, exactly as a JavaScript global
regex replace does.  Each step consumes at least one character, so the
input length is enough gas. -/
def replUndefAux : Nat → List Char → List Char
  | 0, cs => cs
  | _, [] => []
  | gas + 1, c :: cs =>
    if undefinedDot.isPrefixOf (c :: cs) then
      '-' :: ' ' :: replUndefAux gas ((List.drop 9 cs).dropWhile jsSpace)
    else
      c :: replUndefAux gas cs

/-- `content.replace(/undefined\.\s*/g, '- ')` on a string. -/
def cleanUndefinedRefs (s : String) : String :=
  String.mk (replUndefAux s.data.length s.data)

/-- The renderer's per-level mutable state (lib/notion-sync.ts:181-184):
the accumulated output, the (dead) `listCounter`, the two list-run flags
and the numbering stack.  One `RState` models the local variables of one
`blocksToPlainText` invocation. -/
structure RState where
  plainText : String
  listCounter : Nat
  inNumberedList : Bool
  inBulletedList : Bool
  numberingStack : List Nat

/-- Fresh local state of a `blocksToPlainText` invocation entered with the
given `numberingStack` argument. -/
def RState.init (numberingStack : List Nat) : RState :=
  { plainText := "", listCounter := 1, inNumberedList := false,
    inBulletedList := false, numberingStack := numberingStack }

/-- `'  '.repeat(indentLevel)`. -/
def indentOf (indentLevel : Nat) : String :=
  String.join (List.replicate indentLevel "  ")

/-- The loop of `blocksToPlainText` (lib/notion-sync.ts:186-307), one
block per step, with the source's one-block lookahead (`nextBlock`).
Recursive renders of a block's children re-enter with a fresh local state
(they are fresh invocations in the source); bulleted and toggle children
get the default empty numbering stack, numbered children get a copy of the
current stack (lines 242, 272, 287).  Notes on JavaScript truthiness kept
out of the model: the skip `!block || (!block.content && !block.children)`
never fires because `children` is always an array here and arrays are
truthy; `block.alt` is never set on a `ProcessedBlock`, so the image
placeholder always reads `the topic`; `numberingStack[indentLevel]` can be
read out of bounds after a `push` at a deep level, which JavaScript
renders as the text `undefined` - modelled by the `get?`/`none` branch.
The gas decreases once per rendered block and once per descent, so
`sizePBs` of the block list bounds it. -/
def renderGo : Nat → Nat → List ProcessedBlock → RState → RState
  | 0, _, _, st => st
  | _ + 1, _, [], st => st
  | gas + 1, indentLevel, b :: rest, st =>
    let nextBlock := rest.head?
    if (b.content != "") && b.content.startsWith "Unsupported block type:" then
      let st1 :=
        if b.type == "image" then
          { st with plainText := st.plainText ++
              "[Image: A visual representation related to the topic]\n\n" }
        else if b.type == "table" then
          { st with plainText := st.plainText ++
              "[Table: Information organized in tabular format]\n\n" }
        else st
      renderGo gas indentLevel rest st1
    else
      let content := cleanUndefinedRefs b.content
      let indent := indentOf indentLevel
      let st1 :=
        match b.type with
        | "paragraph" =>
          if jsTrim content != "" then
            { st with plainText := st.plainText ++ indent ++ content ++ "\n\n" }
          else st
        | "heading_1" =>
          { st with plainText := st.plainText ++ indent ++ "# " ++ content ++ "\n\n" }
        | "heading_2" =>
          { st with plainText := st.plainText ++ indent ++ "## " ++ content ++ "\n\n" }
        | "heading_3" =>
          { st with plainText := st.plainText ++ indent ++ "### " ++ content ++ "\n\n" }
        | "bulleted_list_item" =>
          let sA :=
            if !st.inBulletedList && indentLevel == 0 then
              { st with plainText := st.plainText ++ "\n" }
            else st
          let sB := { sA with
            plainText := sA.plainText ++ indent ++ "- " ++ content ++ "\n",
            inBulletedList := true, inNumberedList := false }
          let sC :=
            if b.children.isEmpty then sB
            else { sB with plainText := sB.plainText ++
              (renderGo gas (indentLevel + 1) b.children (RState.init [])).plainText }
          match nextBlock with
          | some nb =>
            if nb.type != "bulleted_list_item" && indentLevel == 0 then
              { sC with plainText := sC.plainText ++ "\n", inBulletedList := false }
            else sC
          | none => sC
        | "numbered_list_item" =>
          let sA :=
            if !st.inNumberedList && indentLevel == 0 then
              { st with plainText := st.plainText ++ "\n", listCounter := 1 }
            else st
          let stack1 :=
            if sA.numberingStack.length ≤ indentLevel then
              sA.numberingStack ++ [1]
            else
              sA.numberingStack.set indentLevel
                (if sA.inNumberedList then (sA.numberingStack.getD indentLevel 0) + 1
                 else 1)
          let numStr :=
            match stack1.get? indentLevel with
            | some n => toString n
            | none => "undefined"
          let sB := { sA with
            plainText := sA.plainText ++ indent ++ numStr ++ ". " ++ content ++ "\n",
            inNumberedList := true, inBulletedList := false,
            numberingStack := stack1 }
          let sC :=
            if b.children.isEmpty then sB
            else { sB with plainText := sB.plainText ++
              (renderGo gas (indentLevel + 1) b.children (RState.init stack1)).plainText }
          match nextBlock with
          | some nb =>
            if nb.type != "numbered_list_item" && indentLevel == 0 then
              { sC with plainText := sC.plainText ++ "\n", inNumberedList := false }
            else sC
          | none => sC
        | "toggle" =>
          let sA := { st with plainText := st.plainText ++ indent ++ "▶ " ++ content ++ "\n" }
          let sB :=
            if b.children.isEmpty then sA
            else { sA with plainText := sA.plainText ++
              (renderGo gas (indentLevel + 1) b.children (RState.init [])).plainText }
          { sB with plainText := sB.plainText ++ "\n" }
        | "table" =>
          { st with plainText := st.plainText ++ indent ++
              "[Table: Information organized in tabular format]\n\n" }
        | "image" =>
          { st with plainText := st.plainText ++ indent ++
              "[Image: A visual representation related to the topic]\n\n" }
        | _ =>
          if (content != "") && jsTrim content != "" then
            { st with plainText := st.plainText ++ indent ++ content ++ "\n\n" }
          else st
      renderGo gas indentLevel rest st1

/-- `blocksToPlainText` (lib/notion-sync.ts:174-310): empty input yields
the empty string; otherwise run the loop from a fresh local state. -/
def blocksToPlainText (blocks : List ProcessedBlock) (indentLevel : Nat := 0)
    (numberingStack : List Nat := []) : String :=
  if blocks.isEmpty then ""
  else (renderGo (sizePBs blocks) indentLevel blocks (RState.init numberingStack)).plainText

/-- A row of the `pages` table as written by the sync
(lib/notion-sync.ts:394-409).  Besides the two identity columns we carry
`title` and `plain_text` as representatives of the remaining data columns,
which are all written the same way (wholesale, from `pageData`). -/
structure PageRow where
  notion_page_id : String
  user_id : String
  title : Option String
  plain_text : String
deriving DecidableEq, Repr

/-- The store interaction of `syncNotionPageToSupabase`
(lib/notion-sync.ts:411-439): select one row by `notion_page_id` alone
(`.eq('notion_page_id', pageId).single()` - no `user_id` filter); if one
exists, update every row matching that `notion_page_id` with all fields of
`pageData` (again no owner filter); otherwise insert `pageData` as a new
row. -/
def syncUpsertPage (table : List PageRow) (pageData : PageRow) : List PageRow :=
  match table.find? (fun r => r.notion_page_id == pageData.notion_page_id) with
  | some _ =>
    table.map (fun r =>
      if r.notion_page_id == pageData.notion_page_id then pageData else r)
  | none => table ++ [pageData]

/-- Cache key prefixes (lib/redis.ts:30-33). -/
def CACHE_KEYS.PAGE_LIST : String := "notion_pages"

/-- Cache key prefixes (lib/redis.ts:30-33). -/
def CACHE_KEYS.PAGE_DETAIL : String := "notion_page_detail"

/-- `cacheUtils.getPageListKey` (lib/redis.ts:109-111). -/
def getPageListKey (userId : String) : String :=
  CACHE_KEYS.PAGE_LIST ++ ":" ++ userId

/-- `cacheUtils.getPageDetailKey` (lib/redis.ts:116-118). -/
def getPageDetailKey (pageId : String) : String :=
  CACHE_KEYS.PAGE_DETAIL ++ ":" ++ pageId

/-- The underlying ioredis client, each operation fallible
(`Except.error` models a thrown/rejected call).  `get` returns `none` for
a missing key; `scan` maps a cursor and a match pattern to the next cursor
and a batch of keys. -/
structure RedisClient where
  get : String → Except String (Option String)
  set : String → String → Nat → Except String Unit
  del : List String → Except String Nat
  scan : String → String → Except String (String × List String)

namespace cacheUtils

/-- `cacheUtils.get` (lib/redis.ts:46-54): any thrown error - from the
client read or from `JSON.parse` (the `parse` argument) - is caught and
becomes `null`; a missing or empty value is `null` via `data ? ... : null`. -/
def get (client : RedisClient) (parse : String → Except String String)
    (key : String) : Except String (Option String) :=
  match client.get key with
  | Except.error _ => Except.ok none
  | Except.ok none => Except.ok none
  | Except.ok (some data) =>
    if data == "" then Except.ok none
    else
      match parse data with
      | Except.error _ => Except.ok none
      | Except.ok v => Except.ok (some v)

/-- `cacheUtils.set` (lib/redis.ts:59-65): errors are caught and logged;
the operation resolves either way. -/
def set (client : RedisClient) (key data : String) (expiration : Nat) :
    Except String Unit :=
  match client.set key data expiration with
  | Except.error _ => Except.ok ()
  | Except.ok _ => Except.ok ()

/-- `cacheUtils.delete` (lib/redis.ts:70-76). -/
def delete (client : RedisClient) (key : String) : Except String Unit :=
  match client.del [key] with
  | Except.error _ => Except.ok ()
  | Except.ok _ => Except.ok ()

/-- `cacheUtils.clearByPrefix` (lib/redis.ts:81-104), the SCAN loop with
explicit gas (the do/while has no intrinsic bound: it spins until the
cursor returns to `'0'`; gas exhaustion models an unfinished loop, which
still ends without an error).  A failure of `scan` or `del` is caught by
the surrounding try/catch and the whole operation resolves. -/
def clearPrefixedAux (client : RedisClient) :
    Nat → String → String → Except String Unit
  | 0, _, _ => Except.ok ()
  | gas + 1, cursor, pre =>
    match client.scan cursor (pre ++ "*") with
    | Except.error _ => Except.ok ()
    | Except.ok (cursor', keys) =>
      match (if keys.length > 0 then client.del keys else Except.ok 0) with
      | Except.error _ => Except.ok ()
      | Except.ok _ =>
        if cursor' == "0" then Except.ok ()
        else clearPrefixedAux client gas cursor' pre

/-- `cacheUtils.clearByPrefix` entered with cursor `'0'`. -/
def clearPrefixed (client : RedisClient) (gas : Nat) (pre : String) :
    Except String Unit :=
  clearPrefixedAux client (gas + 1) "0" pre

/-- `cacheUtils.invalidateUserCache` (lib/redis.ts:123-131): delete the
page-list key; its own try/catch swallows anything that escapes. -/
def invalidateUserCache (client : RedisClient) (userId : String) :
    Except String Unit :=
  match delete client (getPageListKey userId) with
  | Except.error _ => Except.ok ()
  | Except.ok _ => Except.ok ()

/-- `cacheUtils.invalidatePageCache` (lib/redis.ts:136-148): delete the
page-detail key, and the owner's page-list key too when a `userId` is
supplied; its own try/catch swallows anything that escapes. -/
def invalidatePageCache (client : RedisClient) (pageId : String)
    (userId : Option String) : Except String Unit :=
  match delete client (getPageDetailKey pageId) with
  | Except.error _ => Except.ok ()
  | Except.ok _ =>
    match userId with
    | none => Except.ok ()
    | some u =>
      match delete client (getPageListKey u) with
      | Except.error _ => Except.ok ()
      | Except.ok _ => Except.ok ()

end cacheUtils

/-- The cache keys `cacheUtils.invalidatePageCache` deletes
(lib/redis.ts:136-148): the page-detail key, plus the owner's page-list
key when a user id is supplied. -/
def invalidatePageCacheKeys (pageId : String) (userId : Option String) :
    List String :=
  getPageDetailKey pageId ::
    (match userId with
     | some u => [getPageListKey u]
     | none => [])

/-- The cache keys `cacheUtils.invalidateUserCache` deletes
(lib/redis.ts:123-131): just the owner's page-list key. -/
def invalidateUserCacheKeys (userId : String) : List String :=
  [getPageListKey userId]

/-- `syncAllNotionPagesToSupabase` (lib/notion-sync.ts:455-490), modelled
after its database query succeeded: `pages` pairs each page id returned by
the query with the outcome of `syncNotionPageToSupabase` for it.  A
successful single-page sync calls
`cacheUtils.invalidatePageCache(pageId, userId)` before returning true
(lib/notion-sync.ts:441-445); a failed one performs no invalidation (its
catch path returns false first).  After all page syncs the bulk sync calls
`cacheUtils.invalidateUserCache(userId)` once (line 482) and returns
`successCount > 0` (line 485).  Result: the returned flag and the ordered
list of cache-key deletions the run performs. -/
def syncAllNotionPagesToSupabase (userId : String)
    (pages : List (String × Bool)) : Bool × List String :=
  let results := pages.map (fun p => p.2)
  let successCount := (results.filter (fun b => b)).length
  let deletes :=
    (pages.flatMap (fun p =>
      if p.2 then invalidatePageCacheKeys p.1 (some userId) else [])) ++
    invalidateUserCacheKeys userId
  (decide (successCount > 0), deletes)

/-! ## Claim C2 - Content Extractor output per block type -/

/-- Claim C2, counterexample: a `table` block does not get empty content
from the Content Extractor - it falls into the `default` branch and gets
the sentinel string, so the claim "table or image yields empty string" is
false on the code. -/
theorem extractBlockContent_table_cex :
    extractBlockContent (RawBlock.mk "b" "table" [] true) =
      "Unsupported block type: table" ∧
    ¬ ("Unsupported block type: table" = "") := by
  exact ⟨rfl, by decide⟩

/-- Claim C2, amended: `table` and `image` blocks yield the sentinel
`Unsupported block type: <type>` (substituting placeholder text is then
the renderer's job, keyed on that sentinel); each of the seven recognized
text-bearing types yields the concatenation of the plain text of that
type's rich-text runs, in order, with no separator. -/
theorem extractBlockContent_amended :
    (∀ b : RawBlock, b.type = "table" →
      extractBlockContent b = "Unsupported block type: table") ∧
    (∀ b : RawBlock, b.type = "image" →
      extractBlockContent b = "Unsupported block type: image") ∧
    (∀ (b : RawBlock) (rt : List RichTextItem), b.type = "paragraph" →
      b.getField "paragraph" = some rt →
      extractBlockContent b = String.join (rt.map (fun t => t.plain_text))) ∧
    (∀ (b : RawBlock) (rt : List RichTextItem), b.type = "heading_1" →
      b.getField "heading_1" = some rt →
      extractBlockContent b = String.join (rt.map (fun t => t.plain_text))) ∧
    (∀ (b : RawBlock) (rt : List RichTextItem), b.type = "heading_2" →
      b.getField "heading_2" = some rt →
      extractBlockContent b = String.join (rt.map (fun t => t.plain_text))) ∧
    (∀ (b : RawBlock) (rt : List RichTextItem), b.type = "heading_3" →
      b.getField "heading_3" = some rt →
      extractBlockContent b = String.join (rt.map (fun t => t.plain_text))) ∧
    (∀ (b : RawBlock) (rt : List RichTextItem), b.type = "bulleted_list_item" →
      b.getField "bulleted_list_item" = some rt →
      extractBlockContent b = String.join (rt.map (fun t => t.plain_text))) ∧
    (∀ (b : RawBlock) (rt : List RichTextItem), b.type = "numbered_list_item" →
      b.getField "numbered_list_item" = some rt →
      extractBlockContent b = String.join (rt.map (fun t => t.plain_text))) ∧
    (∀ (b : RawBlock) (rt : List RichTextItem), b.type = "toggle" →
      b.getField "toggle" = some rt →
      extractBlockContent b = String.join (rt.map (fun t => t.plain_text))) := by
  refine ⟨?_, ?_, ?_, ?_, ?_, ?_, ?_, ?_, ?_⟩ <;>
    intro b
  case _ => intro h; simp [extractBlockContent, h]
  case _ => intro h; simp [extractBlockContent, h]
  all_goals
    intro rt h hf
    simp [extractBlockContent, h, hf, extractRichTextContent]

/-- Claim C2, witness for the amended theorem at concrete blocks. -/
theorem extractBlockContent_amended_witness :
    extractBlockContent (RawBlock.mk "b" "table" [] true) =
      "Unsupported block type: table" ∧
    extractBlockContent
      (RawBlock.mk "c" "paragraph"
        [("paragraph", [RichTextItem.mk "he", RichTextItem.mk "llo"])] false) =
      "hello" := by
  refine ⟨extractBlockContent_amended.1 _ rfl, ?_⟩
  exact (extractBlockContent_amended.2.2.1
    (RawBlock.mk "c" "paragraph"
      [("paragraph", [RichTextItem.mk "he", RichTextItem.mk "llo"])] false)
    [RichTextItem.mk "he", RichTextItem.mk "llo"] rfl rfl).trans rfl

/-! ## Claim C8 - title extraction candidate order -/

/-- Claim C8, counterexample: with `Pages` present as a `title` property
holding no runs and `Name` holding the non-empty text `Real Title`, the
extraction returns `null` - the later candidate is never consulted, so
the claim that an empty earlier candidate defers to later ones is false. -/
theorem extractPageTitle_empty_first_cex :
    extractPageTitle
      [("Pages", NProp.title []),
       ("Name", NProp.title [RichTextItem.mk "Real Title"])] = none ∧
    lookupProp
      [("Pages", NProp.title []),
       ("Name", NProp.title [RichTextItem.mk "Real Title"])] "Name" =
      some (NProp.title [RichTextItem.mk "Real Title"]) := by
  exact ⟨rfl, rfl⟩

/-- Claim C8, amended: the candidates are consulted in priority order, but
the first PRESENT candidate of a recognized shape wins unconditionally -
if its value is empty the function returns `null` at once, without
consulting later candidates.  Later candidates are reached only when an
earlier key is absent (or holds an unrecognized non-string property). -/
theorem extractPageTitle_amended (props : List (String × NProp)) :
    (∀ items, lookupProp props "Pages" = some (NProp.title items) →
      extractPageTitle props =
        orNull (items.head?.map (fun t => t.plain_text))) ∧
    (∀ items, lookupProp props "Pages" = none →
      lookupProp props "Pages " = none →
      lookupProp props "Name" = some (NProp.title items) →
      extractPageTitle props =
        orNull (items.head?.map (fun t => t.plain_text))) := by
  constructor
  · intro items h
    simp [extractPageTitle, extractPageTitle.go, possibleTitleKeys, titleStep, h]
  · intro items h1 h2 h3
    simp [extractPageTitle, extractPageTitle.go, possibleTitleKeys, titleStep,
      h1, h2, h3]

/-- Claim C8, witness: the amended theorem applied at the counterexample
input (empty `Pages`, non-empty `Name`) and at an input where `Pages` is
absent and `Name` wins. -/
theorem extractPageTitle_amended_witness :
    extractPageTitle
      [("Pages", NProp.title []),
       ("Name", NProp.title [RichTextItem.mk "Real Title"])] = none ∧
    extractPageTitle [("Name", NProp.title [RichTextItem.mk "From Name"])] =
      some "From Name" := by
  constructor
  · exact ((extractPageTitle_amended
      [("Pages", NProp.title []),
       ("Name", NProp.title [RichTextItem.mk "Real Title"])]).1 [] rfl).trans rfl
  · exact ((extractPageTitle_amended
      [("Name", NProp.title [RichTextItem.mk "From Name"])]).2
      [RichTextItem.mk "From Name"] rfl rfl rfl).trans rfl

/-! ## Claim C1 - upsert keying -/

/-- Claim C1, counterexample: the store holds one row for `page1` owned by
`ownerA`; syncing `page1` for `ownerB` does not insert a new
`(page1, ownerB)` row - it overwrites `ownerA`'s row wholesale, owner
column included, because the select and the update filter on
`notion_page_id` alone.  So the claim that the upsert is keyed by
`(externalId, ownerId)` and never touches another owner's row is false. -/
theorem syncUpsertPage_cross_owner_cex :
    syncUpsertPage
      [PageRow.mk "page1" "ownerA" (some "titleA") "textA"]
      (PageRow.mk "page1" "ownerB" (some "titleB") "textB") =
      [PageRow.mk "page1" "ownerB" (some "titleB") "textB"] ∧
    ¬ ("ownerA" = "ownerB") := by
  exact ⟨rfl, by decide⟩

/-- Claim C1, amended: the upsert is keyed by `externalId`
(`notion_page_id`) alone: the upserted data is always present afterwards,
every row carrying that `externalId` - whoever owned it - now equals the
new data (all fields, owner included, replaced), and rows with any other
`externalId` are untouched. -/
theorem syncUpsertPage_amended (table : List PageRow) (pageData : PageRow) :
    pageData ∈ syncUpsertPage table pageData ∧
    (∀ r ∈ syncUpsertPage table pageData,
      r.notion_page_id = pageData.notion_page_id → r = pageData) ∧
    (∀ r : PageRow, r.notion_page_id ≠ pageData.notion_page_id →
      (r ∈ syncUpsertPage table pageData ↔ r ∈ table)) := by
  unfold syncUpsertPage
  cases hf : table.find? (fun r => r.notion_page_id == pageData.notion_page_id) with
  | none =>
    rw [List.find?_eq_none] at hf
    refine ⟨by simp, ?_, ?_⟩
    · intro r hr hid
      rcases List.mem_append.1 hr with h | h
      · exact absurd (beq_iff_eq.2 hid) (hf r h)
      · simpa using h
    · intro r hne
      constructor
      · intro hr
        rcases List.mem_append.1 hr with h | h
        · exact h
        · simp only [List.mem_singleton] at h
          subst h
          exact absurd rfl hne
      · intro hr
        exact List.mem_append.2 (Or.inl hr)
  | some x =>
    have hx := List.find?_some hf
    have hxm := List.mem_of_find?_eq_some hf
    refine ⟨?_, ?_, ?_⟩
    · exact List.mem_map.2 ⟨x, hxm, by simp [hx]⟩
    · intro r hr hid
      rcases List.mem_map.1 hr with ⟨y, _, hy⟩
      by_cases hc : (y.notion_page_id == pageData.notion_page_id) = true
      · rw [if_pos hc] at hy
        exact hy.symm
      · rw [if_neg hc] at hy
        subst hy
        exact absurd (beq_iff_eq.2 hid) hc
    · intro r hne
      constructor
      · intro hr
        rcases List.mem_map.1 hr with ⟨y, hym, hy⟩
        by_cases hc : (y.notion_page_id == pageData.notion_page_id) = true
        · rw [if_pos hc] at hy
          subst hy
          exact absurd rfl hne
        · rw [if_neg hc] at hy
          subst hy
          exact hym
      · intro hr
        exact List.mem_map.2 ⟨r, hr, by simp [hne]⟩

/-- Claim C1, witness for the amended theorem: the new data lands in the
table, and a row under a different `externalId` survives the upsert. -/
theorem syncUpsertPage_amended_witness :
    PageRow.mk "page1" "ownerB" (some "titleB") "textB" ∈
      syncUpsertPage [PageRow.mk "page2" "ownerA" (some "titleA") "textA"]
        (PageRow.mk "page1" "ownerB" (some "titleB") "textB") ∧
    (PageRow.mk "page2" "ownerA" (some "titleA") "textA" ∈
      syncUpsertPage [PageRow.mk "page2" "ownerA" (some "titleA") "textA"]
        (PageRow.mk "page1" "ownerB" (some "titleB") "textB") ↔
      PageRow.mk "page2" "ownerA" (some "titleA") "textA" ∈
        [PageRow.mk "page2" "ownerA" (some "titleA") "textA"]) := by
  exact ⟨(syncUpsertPage_amended _ _).1,
    (syncUpsertPage_amended _ _).2.2 _ (by decide)⟩

/-! ## Claim C5 - maximum depth 0 -/

/-- A remote source whose root block has one directly-listed child that
itself reports children. -/
def c5client : NotionClient := fun s =>
  if s == "root" then
    Except.ok [RawBlock.mk "c1" "paragraph" [("paragraph", [RichTextItem.mk "x"])] true]
  else Except.ok []

/-- Claim C5, counterexample: with a maximum depth of 0 the fetcher
returns the empty list - the `depth >= maxDepth` guard fires before the
root listing - even though the remote lists a direct child of the root,
so the claim that depth 0 yields the directly-listed root children is
false. -/
theorem processBlocks_depth_zero_cex :
    processBlocksRecursively c5client "root" 0 0 = [] ∧
    c5client "root" =
      Except.ok [RawBlock.mk "c1" "paragraph"
        [("paragraph", [RichTextItem.mk "x"])] true] := by
  exact ⟨rfl, rfl⟩

/-- Claim C5, amended: a maximum depth of 0 yields an empty tree (not even
the root's direct children); the behavior the claim describes - exactly
the directly-listed root children with extracted type and content, each
childless even when the remote marks it as having children - is what a
maximum depth of 1 produces. -/
theorem processBlocks_depth_amended (client : NotionClient) (rootId : String) :
    processBlocksRecursively client rootId 0 0 = [] ∧
    (∀ blocks, client rootId = Except.ok blocks →
      processBlocksRecursively client rootId 0 1 =
        blocks.map (fun b =>
          ProcessedBlock.mk b.id b.type (extractBlockContent b) [])) := by
  constructor
  · rfl
  · intro blocks h
    simp [processBlocksRecursively, processBlocksAux, h]

/-- Claim C5, witness: the amended theorem at the concrete client. -/
theorem processBlocks_depth_amended_witness :
    processBlocksRecursively c5client "root" 0 1 =
      [ProcessedBlock.mk "c1" "paragraph" "x" []] := by
  exact ((processBlocks_depth_amended c5client "root").2
    [RawBlock.mk "c1" "paragraph" [("paragraph", [RichTextItem.mk "x"])] true]
    rfl).trans rfl

/-! ## Claim C4 - error isolation in the tree fetcher -/

/-- A remote source that throws on every listing call, the root's
included. -/
def rootFailClient : NotionClient := fun _ => Except.error ()

/-- Claim C4, counterexample: when the listing call for the root itself
fails, the failure does NOT escape the Tree Fetcher - the outer catch
(lib/notion-sync.ts:122-125) swallows it and the fetcher returns an
ordinary empty result to its caller.  So the claimed "escapes if and only
if the root listing fails" is false: no failure ever escapes. -/
theorem processBlocks_root_failure_cex :
    processBlocksRecursively rootFailClient "root" 0 3 = [] ∧
    rootFailClient "root" = Except.error () := by
  exact ⟨rfl, rfl⟩

/-- Claim C4, amended: no failure ever escapes the Tree Fetcher.  A
failing root listing is caught and yields an empty result; a failure
fetching a non-root block's children is caught and yields that block
present but childless, while its sibling's subtree is still fetched and
populated as usual. -/
theorem processBlocks_error_policy_amended (client : NotionClient)
    (rootId : String) (maxDepth : Nat) :
    (client rootId = Except.error () →
      processBlocksRecursively client rootId 0 maxDepth = []) ∧
    (∀ bFail bOk : RawBlock, client rootId = Except.ok [bFail, bOk] →
      client bFail.id = Except.error () →
      bFail.has_children = true →
      2 ≤ maxDepth →
      processBlocksRecursively client rootId 0 maxDepth =
        [ProcessedBlock.mk bFail.id bFail.type (extractBlockContent bFail) [],
         ProcessedBlock.mk bOk.id bOk.type (extractBlockContent bOk)
           (if bOk.has_children then
              processBlocksRecursively client bOk.id 1 maxDepth
            else [])]) := by
  constructor
  · intro h
    cases maxDepth with
    | zero => rfl
    | succ k => simp [processBlocksRecursively, processBlocksAux, h]
  · intro bFail bOk hroot hfail hchil hm
    obtain ⟨k, rfl⟩ : ∃ k, maxDepth = k + 2 :=
      ⟨maxDepth - 2, by omega⟩
    have hd : decide (0 < k + 2) = true := by simp
    simp only [processBlocksRecursively, Nat.sub_zero]
    rw [processBlocksAux]
    simp only [Nat.not_succ_le_zero, if_false, ge_iff_le, Nat.le_zero, hroot]
    rw [if_neg (show ¬ (k + 2 = 0) by omega)]
    have hbf : (bFail.has_children && decide (0 < k + 2)) = true := by
      simp [hchil]
    have hcall : processBlocksAux client (k + 1) bFail.id (0 + 1) (k + 2) = [] := by
      rw [processBlocksAux]
      rw [if_neg (show ¬ ((0 + 1 : Nat) ≥ k + 2) by omega)]
      simp [hfail]
    have hk2 : k + 2 - 1 = k + 1 := by omega
    simp only [List.map_cons, List.map_nil, hbf, if_true, hcall, hk2]
    cases hc : bOk.has_children with
    | true => simp [hc, hd]
    | false => simp [hc]

/-- A remote source for the C4 witness: the root lists two children; the
listing call for the first child (`cf`) throws, the one for the second
(`cg`) succeeds with one leaf child. -/
def c4client : NotionClient := fun s =>
  if s == "root" then
    Except.ok
      [RawBlock.mk "cf" "paragraph" [("paragraph", [RichTextItem.mk "f"])] true,
       RawBlock.mk "cg" "paragraph" [("paragraph", [RichTextItem.mk "g"])] true]
  else if s == "cf" then Except.error ()
  else if s == "cg" then
    Except.ok [RawBlock.mk "leaf" "paragraph" [("paragraph", [RichTextItem.mk "l"])] false]
  else Except.ok []

/-- Claim C4, witness: the amended theorem at the concrete client - the
failed subtree is present and childless, the sibling subtree is fully
populated, and a failing root is caught. -/
theorem processBlocks_error_policy_amended_witness :
    processBlocksRecursively c4client "root" 0 3 =
      [ProcessedBlock.mk "cf" "paragraph" "f" [],
       ProcessedBlock.mk "cg" "paragraph" "g"
         [ProcessedBlock.mk "leaf" "paragraph" "l" []]] ∧
    processBlocksRecursively rootFailClient "r" 0 3 = [] := by
  constructor
  · exact ((processBlocks_error_policy_amended c4client "root" 3).2
      (RawBlock.mk "cf" "paragraph" [("paragraph", [RichTextItem.mk "f"])] true)
      (RawBlock.mk "cg" "paragraph" [("paragraph", [RichTextItem.mk "g"])] true)
      rfl rfl rfl (by omega)).trans rfl
  · exact (processBlocks_error_policy_amended rootFailClient "r" 3).1 rfl

/-! ## Claim C6 - no listing call at the depth bound -/

/-- Every children-listing call the fetcher issues is for a node strictly
above the depth bound: gas-general form, by induction on the gas. -/
theorem fetchCallsAux_bounded (client : NotionClient) (maxDepth : Nat) :
    ∀ (gas : Nat) (blockId : String) (depth : Nat) (p : String × Nat),
      p ∈ fetchCallsAux client gas blockId depth maxDepth → p.2 < maxDepth := by
  intro gas
  induction gas with
  | zero =>
    intro blockId depth p hp
    rw [fetchCallsAux] at hp
    by_cases h : depth ≥ maxDepth
    · rw [if_pos h] at hp
      simp at hp
    · rw [if_neg h] at hp
      simp at hp
  | succ g ih =>
    intro blockId depth p hp
    rw [fetchCallsAux] at hp
    by_cases h : depth ≥ maxDepth
    · rw [if_pos h] at hp
      simp at hp
    · rw [if_neg h] at hp
      cases hc : client blockId with
      | error e =>
        rw [hc] at hp
        simp at hp
        subst hp
        show depth < maxDepth
        omega
      | ok blocks =>
        rw [hc] at hp
        simp only [List.mem_cons] at hp
        rcases hp with hp | hp
        · subst hp
          show depth < maxDepth
          omega
        · rcases List.mem_flatMap.1 hp with ⟨b, _, hb⟩
          by_cases hcc : (b.has_children && decide (depth < maxDepth)) = true
          · rw [if_pos hcc] at hb
            exact ih b.id (depth + 1) p hb
          · rw [if_neg hcc] at hb
            simp at hb

/-- Claim C6: for every remote source, root id and configured maximum
depth, the Tree Fetcher never issues a children-listing call for a node
sitting at depth equal to the maximum - every (block id, depth) pair in
the trace of issued listing calls has depth strictly below the bound, so
nodes at the bound are leaves costing no remote round-trip. -/
theorem fetchListingCalls_below_bound (client : NotionClient)
    (blockId : String) (maxDepth : Nat) :
    ∀ p ∈ fetchListingCalls client blockId 0 maxDepth, p.2 < maxDepth := by
  intro p hp
  exact fetchCallsAux_bounded client maxDepth (maxDepth - 0) blockId 0 p hp

/-- A remote source for the C6 witness: the root lists one child with
children of its own. -/
def c6client : NotionClient := fun s =>
  if s == "r" then
    Except.ok [RawBlock.mk "a" "paragraph" [("paragraph", [RichTextItem.mk "x"])] true]
  else Except.ok []

/-- Claim C6, witness: at maximum depth 2 the trace contains the call for
child `a` at depth 1, and the theorem yields `1 < 2` for it. -/
theorem fetchListingCalls_below_bound_witness :
    ("a", 1) ∈ fetchListingCalls c6client "r" 0 2 ∧ (("a", 1) : String × Nat).2 < 2 := by
  have hm : ("a", 1) ∈ fetchListingCalls c6client "r" 0 2 := by
    show ("a", 1) ∈ [("r", 0), ("a", 1)]
    simp
  exact ⟨hm, fetchListingCalls_below_bound c6client "r" 2 ("a", 1) hm⟩

/-! ## Claim C3 - numbered-list counter reset per depth -/

set_option maxRecDepth 100000 in
/-- Claim C3, counterexample: the sibling sequence
`[numbered, numbered, paragraph, numbered]` nested one level down (as the
children of a numbered item) renders with numbers 1, 2, 3 - not 1, 2, 1:
at depths above the top level neither the `inNumberedList` flag nor the
stack entry is reset by a paragraph sibling (both resets are guarded by
`indentLevel === 0`, lib/notion-sync.ts:254-257 and 276-279), so the claim
that the counter resets at any depth is false. -/
theorem numbered_reset_nested_cex :
    blocksToPlainText
      [ProcessedBlock.mk "i0" "numbered_list_item" "p"
        [ProcessedBlock.mk "i1" "numbered_list_item" "a" [],
         ProcessedBlock.mk "i2" "numbered_list_item" "b" [],
         ProcessedBlock.mk "i3" "paragraph" "c" [],
         ProcessedBlock.mk "i4" "numbered_list_item" "d" []]] 0 [] =
      "\n1. p\n  1. a\n  2. b\n  c\n\n  3. d\n" ∧
    ¬ ("\n1. p\n  1. a\n  2. b\n  c\n\n  3. d\n" =
       "\n1. p\n  1. a\n  2. b\n  c\n\n  1. d\n") := by
  exact ⟨rfl, by decide⟩

set_option maxRecDepth 100000 in
/-- Claim C3, amended: the reset-on-interruption behavior holds at the top
indentation level - `[num, num, para, num]` renders 1, 2, 1 there - but
not at nested depths: the same sibling sequence as the children of a
numbered item renders 1, 2, 3, because both the numbered-run flag reset
and the trailing-run bookkeeping only fire when `indentLevel` is 0. -/
theorem numbered_reset_amended :
    blocksToPlainText
      [ProcessedBlock.mk "i1" "numbered_list_item" "a" [],
       ProcessedBlock.mk "i2" "numbered_list_item" "b" [],
       ProcessedBlock.mk "i3" "paragraph" "c" [],
       ProcessedBlock.mk "i4" "numbered_list_item" "d" []] 0 [] =
      "\n1. a\n2. b\n\nc\n\n\n1. d\n" ∧
    blocksToPlainText
      [ProcessedBlock.mk "i0" "numbered_list_item" "p"
        [ProcessedBlock.mk "i1" "numbered_list_item" "a" [],
         ProcessedBlock.mk "i2" "numbered_list_item" "b" [],
         ProcessedBlock.mk "i3" "paragraph" "c" [],
         ProcessedBlock.mk "i4" "numbered_list_item" "d" []]] 0 [] =
      "\n1. p\n  1. a\n  2. b\n  c\n\n  3. d\n" := by
  exact ⟨rfl, rfl⟩

/-! ## Claim C10 - the `undefined.` cleanup rewrite -/

/-- The render loop on an exhausted block list leaves the state alone. -/
theorem renderGo_nil (gas indentLevel : Nat) (st : RState) :
    renderGo gas indentLevel [] st = st := by
  cases gas <;> rfl

/-- Claim C10: before rendering a block the renderer rewrites the block's
content with `content.replace(/undefined\.\s*/g, '- ')` - so for any
paragraph whose (cleaned) content is non-blank and not the sentinel, the
rendered text is the CLEANED content, not the extracted one: every
occurrence of `undefined.` plus trailing whitespace has become `- `, and
legitimate text containing `undefined.` is silently altered. -/
theorem renderer_cleans_undefined (s : String)
    (hs : s.startsWith "Unsupported block type:" = false)
    (ht : jsTrim (cleanUndefinedRefs s) ≠ "") :
    blocksToPlainText [ProcessedBlock.mk "b" "paragraph" s []] 0 [] =
      cleanUndefinedRefs s ++ "\n\n" := by
  have h2 : (jsTrim (cleanUndefinedRefs s) != "") = true := by
    simpa using ht
  simp only [blocksToPlainText, List.isEmpty_cons, Bool.false_eq_true,
    if_false, sizePBs, sizePB]
  rw [renderGo]
  simp only [ProcessedBlock.content, ProcessedBlock.type, ProcessedBlock.children,
    hs, Bool.and_false, Bool.false_eq_true, if_false, h2, if_true, renderGo_nil]
  rfl

set_option maxRecDepth 100000 in
/-- Claim C10, witness: on the concrete content `see undefined.   here`
the rendered paragraph reads `see - here` - not the original text. -/
theorem renderer_cleans_undefined_witness :
    jsTrim (cleanUndefinedRefs "see undefined.   here") ≠ "" ∧
    blocksToPlainText
      [ProcessedBlock.mk "b" "paragraph" "see undefined.   here" []] 0 [] =
      "see - here\n\n" ∧
    ¬ ("see undefined.   here" = "see - here") := by
  refine ⟨by decide, ?_, by decide⟩
  exact (renderer_cleans_undefined "see undefined.   here" rfl
    (by decide)).trans rfl

/-! ## Claim C7 - bulk sync result and cache invalidation count -/

/-- A page-detail key never collides with a page-list key: the two key
namespaces differ (at character index 11, `_` versus `s`). -/
theorem detail_key_ne_list_key (p u : String) :
    getPageDetailKey p ≠ getPageListKey u := by
  intro h
  have e1 : (getPageDetailKey p).data = "notion_page_detail:".data ++ p.data := rfl
  have e2 : (getPageListKey u).data = "notion_pages:".data ++ u.data := rfl
  have h11 : ("notion_page_detail:".data ++ p.data)[11]? =
      ("notion_pages:".data ++ u.data)[11]? := by
    rw [← e1, ← e2, h]
  rw [List.getElem?_append_left (by decide),
    List.getElem?_append_left (by decide)] at h11
  exact absurd h11 (by decide)

/-- Among the deletions performed by the successful single-page syncs of a
bulk run, the owner's page-list key appears once per success. -/
theorem countP_page_sync_deletes (userId : String)
    (pages : List (String × Bool)) :
    (pages.flatMap (fun p =>
        if p.2 then invalidatePageCacheKeys p.1 (some userId) else [])).countP
      (fun k => k == getPageListKey userId) =
      pages.countP (fun p => p.2) := by
  induction pages with
  | nil => simp
  | cons p rest ih =>
    simp only [List.flatMap_cons, List.countP_append, ih, List.countP_cons]
    cases hp : p.2 with
    | true =>
      have hne : (getPageDetailKey p.1 == getPageListKey userId) = false :=
        beq_eq_false_iff_ne.2 (detail_key_ne_list_key p.1 userId)
      simp [invalidatePageCacheKeys, List.countP_cons, hne]
      omega
    | false => simp

/-- Claim C7, counterexample: a bulk sync over one page that succeeds
deletes the owner's page-list cache key twice - once inside the
successful single-page sync (`invalidatePageCache(pageId, userId)` deletes
the page-list key too whenever a user id is supplied,
lib/redis.ts:141-144) and once by the end-of-run `invalidateUserCache` -
so the claim that the key is deleted exactly once is false. -/
theorem bulk_sync_invalidation_cex :
    (syncAllNotionPagesToSupabase "u1" [("p1", true)]).2.countP
      (fun k => k == getPageListKey "u1") = 2 ∧
    ¬ ((2 : Nat) = 1) := by
  exact ⟨rfl, by decide⟩

/-- Claim C7, amended: the bulk sync still reports success exactly when at
least one page sync succeeded, but over the run the owner's page-list key
is deleted `s + 1` times, where `s` is the number of successful page syncs
- once inside each successful single-page sync, plus the one unconditional
end-of-run invalidation (which alone happens exactly once). -/
theorem bulk_sync_amended (userId : String) (pages : List (String × Bool)) :
    ((syncAllNotionPagesToSupabase userId pages).1 = true ↔
      ∃ p ∈ pages, p.2 = true) ∧
    (syncAllNotionPagesToSupabase userId pages).2.countP
      (fun k => k == getPageListKey userId) =
      pages.countP (fun p => p.2) + 1 := by
  constructor
  · simp only [syncAllNotionPagesToSupabase, decide_eq_true_eq,
      List.length_pos_iff_exists_mem]
    constructor
    · rintro ⟨b, hb⟩
      rw [List.mem_filter] at hb
      rcases List.mem_map.1 hb.1 with ⟨q, hq, hq2⟩
      exact ⟨q, hq, by rw [hq2]; exact hb.2⟩
    · rintro ⟨q, hq, hq2⟩
      exact ⟨true, List.mem_filter.2 ⟨List.mem_map.2 ⟨q, hq, hq2⟩, rfl⟩⟩
  · simp only [syncAllNotionPagesToSupabase, invalidateUserCacheKeys,
      List.countP_append, countP_page_sync_deletes]
    simp [List.countP_cons]

/-- Claim C7, witness: the amended theorem at a five-page bulk run with
two failures: success is reported and the page-list key is deleted
3 + 1 = 4 times. -/
theorem bulk_sync_amended_witness :
    ((syncAllNotionPagesToSupabase "u"
      [("p1", true), ("p2", false), ("p3", true), ("p4", false), ("p5", true)]).1
        = true) ∧
    (syncAllNotionPagesToSupabase "u"
      [("p1", true), ("p2", false), ("p3", true), ("p4", false), ("p5", true)]).2.countP
      (fun k => k == getPageListKey "u") = 4 := by
  constructor
  · exact (bulk_sync_amended "u"
      [("p1", true), ("p2", false), ("p3", true), ("p4", false), ("p5", true)]).1.2
      ⟨("p1", true), by decide, rfl⟩
  · exact ((bulk_sync_amended "u"
      [("p1", true), ("p2", false), ("p3", true), ("p4", false), ("p5", true)]).2).trans
      (by decide)

/-! ## Claim C9 - cache operations never propagate errors -/

/-- `cacheUtils.delete` resolves with no error for every client. -/
theorem cacheUtils_delete_ok (client : RedisClient) (key : String) :
    cacheUtils.delete client key = Except.ok () := by
  unfold cacheUtils.delete
  cases client.del [key] <;> rfl

/-- The SCAN loop of `cacheUtils.clearByPrefix` resolves with no error for
every client, cursor and remaining gas. -/
theorem clearPrefixedAux_ok (client : RedisClient) (pre : String) :
    ∀ (gas : Nat) (cursor : String),
      cacheUtils.clearPrefixedAux client gas cursor pre = Except.ok () := by
  intro gas
  induction gas with
  | zero => intro cursor; rfl
  | succ g ih =>
    intro cursor
    rw [cacheUtils.clearPrefixedAux]
    cases client.scan cursor (pre ++ "*") with
    | error e => rfl
    | ok r =>
      cases r with
      | mk cursor' keys =>
        simp only []
        cases hdel : (if keys.length > 0 then client.del keys else Except.ok 0) with
        | error e => rfl
        | ok n =>
          by_cases hc : (cursor' == "0") = true
          · simp [hc]
          · simp only [Bool.not_eq_true] at hc
            simp [hc, ih]

/-- Claim C9: every cache operation resolves - a failed read degrades to a
miss (`none`), and failed writes, deletes, prefix scans and invalidations
degrade to completed no-ops - for EVERY behavior of the underlying client
and of JSON parsing, so callers never see a cache error even with the
cache layer entirely unavailable. -/
theorem cacheUtils_never_propagates (client : RedisClient)
    (parse : String → Except String String)
    (key data pre pageId uid : String) (expiration gas : Nat)
    (ouid : Option String) :
    (∃ r, cacheUtils.get client parse key = Except.ok r) ∧
    cacheUtils.set client key data expiration = Except.ok () ∧
    cacheUtils.delete client key = Except.ok () ∧
    cacheUtils.clearPrefixed client gas pre = Except.ok () ∧
    cacheUtils.invalidateUserCache client uid = Except.ok () ∧
    cacheUtils.invalidatePageCache client pageId ouid = Except.ok () ∧
    (∀ e, client.get key = Except.error e →
      cacheUtils.get client parse key = Except.ok none) ∧
    (∀ e, client.set key data expiration = Except.error e →
      cacheUtils.set client key data expiration = Except.ok ()) := by
  refine ⟨?_, ?_, cacheUtils_delete_ok client key, ?_, ?_, ?_, ?_, ?_⟩
  · unfold cacheUtils.get
    cases hg : client.get key with
    | error e => exact ⟨none, rfl⟩
    | ok d =>
      cases d with
      | none => exact ⟨none, rfl⟩
      | some v =>
        by_cases hv : (v == "") = true
        · exact ⟨none, by simp [hv]⟩
        · simp only [Bool.not_eq_true] at hv
          simp only [hv, Bool.false_eq_true, if_false]
          cases parse v with
          | error e => exact ⟨none, rfl⟩
          | ok w => exact ⟨some w, rfl⟩
  · unfold cacheUtils.set
    cases client.set key data expiration <;> rfl
  · exact clearPrefixedAux_ok client pre (gas + 1) "0"
  · unfold cacheUtils.invalidateUserCache
    rw [cacheUtils_delete_ok]
  · unfold cacheUtils.invalidatePageCache
    rw [cacheUtils_delete_ok]
    cases ouid with
    | none => rfl
    | some u =>
      simp only []
      rw [cacheUtils_delete_ok]
  · intro e he
    unfold cacheUtils.get
    rw [he]
  · intro e he
    unfold cacheUtils.set
    rw [he]

/-- An entirely-unavailable cache: every client operation throws, and
parsing fails too. -/
def downClient : RedisClient :=
  { get := fun _ => Except.error "down",
    set := fun _ _ _ => Except.error "down",
    del := fun _ => Except.error "down",
    scan := fun _ _ => Except.error "down" }

/-- Claim C9, witness: with the always-failing client, a read degrades to
a miss and a write to a completed no-op. -/
theorem cacheUtils_never_propagates_witness :
    cacheUtils.get downClient (fun _ => Except.error "bad") "k" =
      Except.ok none ∧
    cacheUtils.set downClient "k" "v" 60 = Except.ok () := by
  exact ⟨(cacheUtils_never_propagates downClient (fun _ => Except.error "bad")
      "k" "v" "pre" "p" "u" 60 3 none).2.2.2.2.2.2.1 "down" rfl,
    (cacheUtils_never_propagates downClient (fun _ => Except.error "bad")
      "k" "v" "pre" "p" "u" 60 3 none).2.2.2.2.2.2.2 "down" rfl⟩

end CodeStory
